import Mathlib

set_option maxRecDepth 8000

/-!
Shallow embedding of the scoring web service packaged by
`solution-onnx-AML.ipynb` (the `scoring_service.py` file written by the
notebook, together with the model architecture the notebook converts to
ONNX and the compliance-labelling rule stated in its data description).

The scalar type `α` idealises the float32 arithmetic of the service as a
linear ordered field with a floor (used for the float-to-int cast that the
converted Embedding layer performs); all theorems are generic in `α`, and
witnesses instantiate `α := ℚ`.
-/

namespace OnnxScoring

/-- JSON values, the possible results of a successful `json.loads` call.
Numbers carry a scalar of type `α`. -/
inductive Json (α : Type) where
  | null : Json α
  | bool : Bool → Json α
  | num : α → Json α
  | str : String → Json α
  | arr : List (Json α) → Json α
  | obj : List (String × Json α) → Json α

/-- The raw request body handed to `run`.  A body that is not valid JSON
makes `json.loads` raise with some message; a valid one decodes to a
`Json` value. -/
inductive RawData (α : Type) where
  | malformed : String → RawData α
  | value : Json α → RawData α

/-- Embedding of `json.loads(raw_data)`: raises (returns `.error`) on
malformed bodies, otherwise yields the decoded JSON value. -/
def jsonLoads {α : Type} : RawData α → Except String (Json α)
  | .malformed msg => .error msg
  | .value j => .ok j

/-- Numeric n-dimensional arrays, the result of
`np.array(...).astype(np.float32)`. -/
inductive Tensor (α : Type) where
  | scalar : α → Tensor α
  | arr : List (Tensor α) → Tensor α

/-- The numpy shape of a tensor (row-major, outer dimension first).
`np.array([])` has shape `(0,)`; nested arrays take their trailing
dimensions from the first element, which is the relevant one because
conversion only builds rectangular tensors. -/
def tensorShape {α : Type} : Tensor α → List Nat
  | .scalar _ => []
  | .arr [] => [0]
  | .arr (t :: ts) => (ts.length + 1) :: tensorShape t

variable {α : Type} [LinearOrderedField α] [FloorRing α]

mutual

/-- Embedding of `np.array(json.loads(...)).astype(np.float32)`: numbers
and booleans convert to scalars, strings / null / objects make the
conversion raise, and nested lists must be rectangular (numpy raises on
ragged input). -/
def toTensor : Json α → Except String (Tensor α)
  | .num x => .ok (.scalar x)
  | .bool b => .ok (.scalar (if b then 1 else 0))
  | .str _ => .error "could not convert string to float"
  | .null => .error "float() argument must be a string or a number, not NoneType"
  | .obj _ => .error "float() argument must be a string or a number, not dict"
  | .arr js =>
    match toTensorList js with
    | .error e => .error e
    | .ok [] => .ok (.arr [])
    | .ok (t :: rest) =>
      if rest.all (fun u => tensorShape u == tensorShape t) then
        .ok (.arr (t :: rest))
      else
        .error "setting an array element with a sequence"

/-- Conversion of a list of JSON elements, failing on the first bad one. -/
def toTensorList : List (Json α) → Except String (List (Tensor α))
  | [] => .ok []
  | j :: js =>
    match toTensor j with
    | .error e => .error e
    | .ok t =>
      match toTensorList js with
      | .error e => .error e
      | .ok ts => .ok (t :: ts)

end

/-- An in-memory ONNX inference session: maps the input array to the list
of output arrays (`session.run(None, {input_name: array})`), or raises. -/
structure ModelHandle (α : Type) where
  runSession : Tensor α → Except String (List (Tensor α))

/-- Reading the process-global `model` variable inside `run`.  If `init`
never assigned it, the lookup raises a NameError. -/
def getGlobalModel : Option (ModelHandle α) → Except String (ModelHandle α)
  | none => .error "name model is not defined"
  | some m => .ok m

/-- Python list indexing `xs[i]`, raising IndexError when out of range. -/
def listIndex {β : Type} (xs : List β) (i : Nat) : Except String β :=
  match xs.get? i with
  | some v => .ok v
  | none => .error "list index out of range"

/-- Numpy array indexing `a[i]` along the outer axis, raising IndexError
when out of range and a too-many-indices error on a 0-d array. -/
def tensorIndex (t : Tensor α) (i : Nat) : Except String (Tensor α) :=
  match t with
  | .scalar _ => .error "too many indices for array"
  | .arr ts =>
    match ts.get? i with
    | some u => .ok u
    | none => .error "index is out of bounds for axis 0"

/-- Numpy `.item()`: succeeds exactly on size-one arrays (any rank),
returning the unique scalar. -/
def tensorItem : Tensor α → Except String α
  | .scalar v => .ok v
  | .arr [t] => tensorItem t
  | .arr (_ :: _ :: _) => .error "can only convert an array of size 1 to a Python scalar"
  | .arr [] => .error "can only convert an array of size 1 to a Python scalar"

/-- The model-facing tail of `run` applied to an already-converted input:
`result = model.run(None, {...})[0]` followed by
`result = result[0][0].item()`. -/
def scoreTensor (m : ModelHandle α) (t : Tensor α) : Except String α :=
  match m.runSession t with
  | .error e => .error e
  | .ok outputs =>
    match listIndex outputs 0 with
    | .error e => .error e
    | .ok out0 =>
      match tensorIndex out0 0 with
      | .error e => .error e
      | .ok row0 =>
        match tensorIndex row0 0 with
        | .error e => .error e
        | .ok cell => tensorItem cell

/-- Embedding of `run(raw_data)` from `scoring_service.py`.  The state is
the process-global `model` variable (`none` when `init` never assigned
it).  Every fallible step raises into the enclosing `try`, whose `except`
clause returns `str(e)`; `.ok` is the float return, `.error` the
returned error string. -/
def run (st : Option (ModelHandle α)) (raw : RawData α) : Except String α :=
  match jsonLoads raw with
  | .error e => .error e
  | .ok j =>
    match toTensor j with
    | .error e => .error e
    | .ok t =>
      match getGlobalModel st with
      | .error e => .error e
      | .ok m => scoreTensor m t

/-- Embedding of `init()`: the attempt to resolve and load the model
artifact either produces a session or raises; the exception is caught and
only printed, so on failure the global `model` keeps its previous value
(unassigned at process start). -/
def init (prev : Option (ModelHandle α)) : Except String (ModelHandle α) → Option (ModelHandle α)
  | .ok m => some m
  | .error _ => prev

/-- One scoring call as a state transition: `run` reads the global model
but contains no assignment to it, so the call returns its response and
leaves the process state unchanged. -/
def runCall (st : Option (ModelHandle α)) (raw : RawData α) :
    Except String α × Option (ModelHandle α) :=
  (run st raw, st)

/-- The process state after serving a sequence of scoring requests. -/
def stateAfterRuns (st : Option (ModelHandle α)) (rs : List (RawData α)) :
    Option (ModelHandle α) :=
  rs.foldl (fun s r => (runCall s r).2) st

/-! ### The compliance model graph

The notebook builds `Sequential([Embedding(10000, 100, input_length=100),
Flatten(), Dense(32, relu), Dense(1, sigmoid)])` and converts it to ONNX.
The converted graph casts the float input to integer indices, gathers
embedding rows, flattens, and applies the two dense layers.  The loaded
session validates the input against the graph input `[None, 100]`. -/

/-- The fixed sequence length (`maxlen = 100` in the notebook). -/
def maxlen : Nat := 100

/-- The vocabulary size (`max_words = 10000` in the notebook). -/
def maxWords : Nat := 10000

/-- The float-to-integer cast performed by the converted Embedding layer
(C-style truncation toward zero). -/
def truncToInt (x : α) : ℤ :=
  if 0 ≤ x then ⌊x⌋ else ⌈x⌉

/-- Weights of the compliance classifier: embedding table, first dense
layer (weights and biases), and the final one-unit dense layer. -/
structure ComplianceWeights (α : Type) where
  emb : List (List α)
  w1 : List (List α)
  b1 : List α
  w2 : List α
  b2 : α

/-- Validity of one input value as an ONNX Gather index into an embedding
table with `emb.length` rows: the truncated value must lie in
`[-emb.length, emb.length)` (ONNX Gather accepts python-style negative
indices; anything else is rejected by the runtime). -/
abbrev validIdx (emb : List (List α)) (x : α) : Prop :=
  -(emb.length : ℤ) ≤ truncToInt x ∧ truncToInt x < (emb.length : ℤ)

/-- One Gather lookup of the converted Embedding layer: truncate the float
to an index, resolve negative indices from the end, and fail on
out-of-bounds indices as the ONNX runtime does. -/
def gatherRow (emb : List (List α)) (x : α) : Except String (List α) :=
  if -(emb.length : ℤ) ≤ truncToInt x ∧ truncToInt x < (emb.length : ℤ) then
    match emb.get? (if truncToInt x < 0 then truncToInt x + emb.length else truncToInt x).toNat with
    | some r => .ok r
    | none => .error "indices element out of data bounds"
  else .error "indices element out of data bounds"

/-- Gather of every token index of one input row. -/
def gatherAll (emb : List (List α)) : List α → Except String (List (List α))
  | [] => .ok []
  | x :: xs =>
    match gatherRow emb x with
    | .error e => .error e
    | .ok r =>
      match gatherAll emb xs with
      | .error e => .error e
      | .ok rs => .ok (r :: rs)

/-- Dot product of two weight/value vectors. -/
def dot (w x : List α) : α :=
  (List.zipWith (fun a b => a * b) w x).sum

/-- A dense layer: one dot-product-plus-bias per unit. -/
def denseLayer (w : List (List α)) (b : List α) (x : List α) : List α :=
  List.zipWith (fun wrow bi => dot wrow x + bi) w b

/-- The logistic sigmoid `1 / (1 + exp(-z))`, with the exponential left
abstract as any function `E` (instantiated by the runtime with `exp`,
whose only property used here is positivity). -/
def sigmoid (E : α → α) (z : α) : α :=
  1 / (1 + E (-z))

/-- The forward pass of the converted graph on one sample row: gather the
embedding rows, flatten, dense-32 with relu, dense-1 with sigmoid. -/
def forwardRow (w : ComplianceWeights α) (E : α → α) (row : List α) : Except String α :=
  match gatherAll w.emb row with
  | .error e => .error e
  | .ok embs =>
    .ok (sigmoid E (dot w.w2 ((denseLayer w.w1 w.b1 embs.flatten).map (fun z => max z 0)) + w.b2))

/-- The forward pass over every sample row of the batch; the runtime fails
the whole call if any row fails. -/
def forwardRows (w : ComplianceWeights α) (E : α → α) :
    List (List α) → Except String (List α)
  | [] => .ok []
  | r :: rs =>
    match forwardRow w E r with
    | .error e => .error e
    | .ok v =>
      match forwardRows w E rs with
      | .error e => .error e
      | .ok vs => .ok (v :: vs)

/-- View of a list of tensors as one row of scalars; `none` when some
element is itself an array. -/
def rowOfScalars : List (Tensor α) → Option (List α)
  | [] => some []
  | .scalar v :: ts =>
    match rowOfScalars ts with
    | some vs => some (v :: vs)
    | none => none
  | .arr _ :: _ => none

/-- View of a list of tensors as a list of scalar rows. -/
def rowsOfTensors : List (Tensor α) → Option (List (List α))
  | [] => some []
  | .arr cells :: rest =>
    match rowOfScalars cells, rowsOfTensors rest with
    | some r, some rs => some (r :: rs)
    | _, _ => none
  | .scalar _ :: _ => none

/-- View of a tensor as a rank-2 numeric matrix (a list of rows of
scalars); `none` when the tensor is not rank 2. -/
def asMatrix : Tensor α → Option (List (List α))
  | .arr rows => rowsOfTensors rows
  | .scalar _ => none

/-- The loaded ONNX session of the compliance model: validates the input
against the graph input shape `[None, 100]` (rank-2, second dimension
`maxlen`, and numpy's `(0,)`-shaped empty array is rank 1 hence
rejected), then runs the forward pass on every row, producing the single
output tensor of shape `(n, 1)`. -/
def sessionRun (w : ComplianceWeights α) (E : α → α) (t : Tensor α) :
    Except String (List (Tensor α)) :=
  match asMatrix t with
  | none => .error "invalid rank for input"
  | some [] => .error "invalid rank for input"
  | some (r0 :: rest) =>
    if (r0 :: rest).all (fun r => r.length == maxlen) then
      match forwardRows w E (r0 :: rest) with
      | .error e => .error e
      | .ok vs => .ok [Tensor.arr (vs.map (fun v => Tensor.arr [Tensor.scalar v]))]
    else .error "got invalid dimensions for input"

/-- The model handle produced by a successful `init` of the compliance
service: an inference session over the converted graph. -/
def mkComplianceSession (w : ComplianceWeights α) (E : α → α) : ModelHandle α :=
  ⟨sessionRun w E⟩

/-! ### Compliance labelling (data description of the notebook)

The notebook's data description states the business rule (a component
manufactured before 1995, or in fair or poor condition, or made of
plastic or iron, is out of compliance) and the label encoding: the labels
present in the data are 0 for compliant, 1 for non-compliant. -/

/-- Condition of a car component. -/
inductive Condition where
  | poor | fair | good | new
deriving DecidableEq

/-- Material of a car component. -/
inductive Material where
  | plastic | carbonFiber | steel | iron
deriving DecidableEq

/-- A car component description: manufacture year, condition, material. -/
structure ComponentDesc where
  year : ℤ
  condition : Condition
  material : Material

/-- The compliance regulation from the notebook's data description. -/
def IsNonCompliant (d : ComponentDesc) : Prop :=
  d.year < 1995 ∨ d.condition = .fair ∨ d.condition = .poor ∨
    d.material = .plastic ∨ d.material = .iron

instance (d : ComponentDesc) : Decidable (IsNonCompliant d) := by
  unfold IsNonCompliant; infer_instance

/-- A component is compliant when the regulation does not rule it out. -/
def IsCompliant (d : ComponentDesc) : Prop := ¬ IsNonCompliant d

instance (d : ComponentDesc) : Decidable (IsCompliant d) := by
  unfold IsCompliant; infer_instance

/-- The label encoding of the training data as stated by the notebook:
0 for compliant, 1 for non-compliant. -/
def label (d : ComponentDesc) : ℕ :=
  if IsNonCompliant d then 1 else 0

/-! ### Concrete instances used by witnesses and counterexamples -/

/-- A JSON request body encoding a matrix of numbers. -/
def jsonOfMatrix (rows : List (List α)) : Json α :=
  .arr (rows.map (fun r => .arr (r.map Json.num)))

/-- The converted tensor of a matrix of numbers. -/
def tensorOfMatrix (rows : List (List α)) : Tensor α :=
  .arr (rows.map (fun r => .arr (r.map Tensor.scalar)))

/-- A stand-in for the runtime's exponential over `ℚ`: any strictly
positive function works for the properties proved here. -/
def expDemo : ℚ → ℚ := fun _ => 1

/-- Demonstration weights with the real dimensions of the notebook's
model: a 10000-row, 100-column embedding table, a 32-unit dense layer
over the 10000 flattened features, and the final unit. -/
def wDemo : ComplianceWeights ℚ :=
  ⟨List.replicate 10000 (List.replicate 100 0),
   List.replicate 32 (List.replicate 10000 0),
   List.replicate 32 0,
   List.replicate 32 0, 0⟩

/-- Small demonstration weights (one-row embedding table, no hidden
units), enough to exercise every code path of the service. -/
def wTiny : ComplianceWeights ℚ :=
  ⟨[[0]], [], [], [], 0⟩

/-- A single valid sample: one row of 100 zero token indices. -/
def rowsOne : List (List ℚ) := [List.replicate 100 0]

/-- Two valid samples: two rows of 100 zero token indices. -/
def rowsTwo : List (List ℚ) := List.replicate 2 (List.replicate 100 0)

/-- A well-formed row of length 100 whose first value, 10000, is outside
the embedding table of the real model. -/
def rowBad : List ℚ := (10000 : ℚ) :: List.replicate 99 0

/-- A short row holding a negative, a fractional and an out-of-vocabulary
value. -/
def rowWild : List ℚ := [(-7 : ℚ), 37 / 10, 50000]

/-- A stub inference session whose output tensor has shape `(2, 1)` with
the values 10 and 20, used to observe which output position `run`
returns. -/
def handleTwo : ModelHandle ℚ :=
  ⟨fun _ => .ok [Tensor.arr [Tensor.arr [Tensor.scalar 10], Tensor.arr [Tensor.scalar 20]]]⟩

/-! ## Helper lemmas -/

/-- A scoring call never assigns the global model, so any sequence of
calls leaves the process state where it was. -/
theorem stateAfterRuns_id (st : Option (ModelHandle α)) (rs : List (RawData α)) :
    stateAfterRuns st rs = st := by
  induction rs generalizing st with
  | nil => rfl
  | cons r rs ih => exact ih st

theorem rowOfScalars_map (r : List α) : rowOfScalars (r.map Tensor.scalar) = some r := by
  induction r with
  | nil => rfl
  | cons x xs ih => simp [rowOfScalars, ih]

theorem rowsOfTensors_map (rows : List (List α)) :
    rowsOfTensors (rows.map (fun r => Tensor.arr (r.map Tensor.scalar))) = some rows := by
  induction rows with
  | nil => rfl
  | cons r rs ih => simp [rowsOfTensors, rowOfScalars_map, ih]

theorem asMatrix_tensorOfMatrix (rows : List (List α)) :
    asMatrix (tensorOfMatrix rows) = some rows := by
  simp [asMatrix, tensorOfMatrix, rowsOfTensors_map]

theorem tensorShape_scalarRow (r : List α) :
    tensorShape (Tensor.arr (r.map Tensor.scalar)) = [r.length] := by
  cases r with
  | nil => rfl
  | cons x xs => simp [tensorShape]

theorem toTensorList_nums (r : List α) :
    toTensorList (r.map Json.num) = .ok (r.map Tensor.scalar) := by
  induction r with
  | nil => rfl
  | cons x xs ih => simp [toTensorList, toTensor, ih]

theorem toTensor_numRow (r : List α) :
    toTensor (Json.arr (r.map Json.num)) = .ok (Tensor.arr (r.map Tensor.scalar)) := by
  cases r with
  | nil => rfl
  | cons x xs =>
    have hall : (xs.map Tensor.scalar).all
        (fun u => tensorShape u == tensorShape (Tensor.scalar x)) = true := by
      rw [List.all_eq_true]
      intro u hu
      rcases List.mem_map.1 hu with ⟨y, _, rfl⟩
      rfl
    have hl : toTensorList ((x :: xs).map Json.num) = .ok ((x :: xs).map Tensor.scalar) :=
      toTensorList_nums (x :: xs)
    simp only [List.map_cons] at hl
    simp [toTensor, hl, hall]

theorem toTensorList_rows (rows : List (List α)) :
    toTensorList (rows.map (fun r => Json.arr (r.map Json.num))) =
      .ok (rows.map (fun r => Tensor.arr (r.map Tensor.scalar))) := by
  induction rows with
  | nil => rfl
  | cons r rs ih => simp [toTensorList, toTensor_numRow, ih]

/-- Conversion of a rectangular numeric JSON matrix succeeds and yields
the corresponding tensor. -/
theorem toTensor_jsonOfMatrix (rows : List (List α)) (L : Nat)
    (h : ∀ r ∈ rows, r.length = L) :
    toTensor (jsonOfMatrix rows) = .ok (tensorOfMatrix rows) := by
  cases rows with
  | nil => rfl
  | cons r rs =>
    have hall : ((rs.map (fun q => Tensor.arr (q.map Tensor.scalar))).all
        (fun u => tensorShape u == tensorShape (Tensor.arr (r.map Tensor.scalar)))) = true := by
      rw [List.all_eq_true]
      intro u hu
      rcases List.mem_map.1 hu with ⟨r2, hr2, rfl⟩
      rw [tensorShape_scalarRow, tensorShape_scalarRow,
        h r2 (List.mem_cons_of_mem _ hr2), h r (List.mem_cons_self _ _)]
      simp
    have hl : toTensorList ((r :: rs).map (fun q => Json.arr (q.map Json.num))) =
        .ok ((r :: rs).map (fun q => Tensor.arr (q.map Tensor.scalar))) :=
      toTensorList_rows (r :: rs)
    simp only [List.map_cons] at hl
    simp [jsonOfMatrix, tensorOfMatrix, toTensor, hl, hall]

/-- Gather succeeds on any value whose truncation is a valid (possibly
negative) index into the embedding table. -/
theorem gatherRow_ok (emb : List (List α)) (x : α) (h : validIdx emb x) :
    ∃ r, gatherRow emb x = .ok r := by
  have hlt : ((if truncToInt x < 0 then truncToInt x + emb.length else truncToInt x)).toNat
      < emb.length := by
    rcases h with ⟨h1, h2⟩
    split <;> omega
  rw [gatherRow, if_pos h, List.get?_eq_get hlt]
  exact ⟨_, rfl⟩

theorem gatherAll_ok (emb : List (List α)) (row : List α)
    (h : ∀ x ∈ row, validIdx emb x) :
    ∃ es, gatherAll emb row = .ok es := by
  induction row with
  | nil => exact ⟨[], rfl⟩
  | cons x xs ih =>
    obtain ⟨r, hr⟩ := gatherRow_ok emb x (h x (List.mem_cons_self x xs))
    obtain ⟨es, hes⟩ := ih (fun y hy => h y (List.mem_cons_of_mem x hy))
    exact ⟨r :: es, by simp [gatherAll, hr, hes]⟩

/-- On a row of valid indices the forward pass succeeds, and its value is
a sigmoid output. -/
theorem forwardRow_ok (w : ComplianceWeights α) (E : α → α) (row : List α)
    (h : ∀ x ∈ row, validIdx w.emb x) :
    ∃ z, forwardRow w E row = .ok (sigmoid E z) := by
  obtain ⟨es, hes⟩ := gatherAll_ok w.emb row h
  refine ⟨dot w.w2 ((denseLayer w.w1 w.b1 es.flatten).map (fun z => max z 0)) + w.b2, ?_⟩
  simp [forwardRow, hes]

theorem forwardRows_ok (w : ComplianceWeights α) (E : α → α) (rows : List (List α))
    (h : ∀ r ∈ rows, ∀ x ∈ r, validIdx w.emb x) :
    ∃ vs, forwardRows w E rows = .ok vs ∧ vs.length = rows.length ∧
      ∀ v ∈ vs, ∃ z, v = sigmoid E z := by
  induction rows with
  | nil => exact ⟨[], rfl, rfl, by simp⟩
  | cons r rs ih =>
    obtain ⟨z, hz⟩ := forwardRow_ok w E r (h r (List.mem_cons_self r rs))
    obtain ⟨vs, hvs, hlen, hsig⟩ := ih (fun r2 hr2 => h r2 (List.mem_cons_of_mem r hr2))
    refine ⟨sigmoid E z :: vs, by simp [forwardRows, hz, hvs], by simp [hlen], ?_⟩
    intro v hv
    rcases List.mem_cons.1 hv with h1 | h2
    · exact ⟨z, h1⟩
    · exact hsig v h2

/-- End-to-end success of `run` on a Ready compliance endpoint: a request
converting to a nonempty matrix with `maxlen` columns and valid token
indices scores successfully, and the response is a sigmoid output. -/
theorem run_valid_ok (w : ComplianceWeights α) (E : α → α) (raw : RawData α)
    (j : Json α) (t : Tensor α) (rows : List (List α))
    (hj : jsonLoads raw = .ok j) (ht : toTensor j = .ok t)
    (hm : asMatrix t = some rows) (hne : rows ≠ [])
    (hall : rows.all (fun r => r.length == maxlen) = true)
    (hvalid : ∀ r ∈ rows, ∀ x ∈ r, validIdx w.emb x) :
    ∃ v, run (some (mkComplianceSession w E)) raw = .ok v ∧ ∃ z, v = sigmoid E z := by
  obtain ⟨vs, hvs, hlen, hsig⟩ := forwardRows_ok w E rows hvalid
  cases rows with
  | nil => exact absurd rfl hne
  | cons r rs =>
    cases vs with
    | nil => simp at hlen
    | cons v0 vt =>
      refine ⟨v0, ?_, hsig v0 (List.mem_cons_self v0 vt)⟩
      simp [run, hj, ht, getGlobalModel, mkComplianceSession, scoreTensor, sessionRun, hm,
        hall, hvs, listIndex, tensorIndex, tensorItem]

theorem sigmoid_nonneg (E : α → α) (hE : ∀ y, 0 < E y) (z : α) : 0 ≤ sigmoid E z := by
  have h := hE (-z)
  have h1 : (0 : α) < 1 + E (-z) := by linarith
  rw [sigmoid]
  exact le_of_lt (div_pos one_pos h1)

theorem sigmoid_le_one (E : α → α) (hE : ∀ y, 0 < E y) (z : α) : sigmoid E z ≤ 1 := by
  have h := hE (-z)
  have h1 : (0 : α) < 1 + E (-z) := by linarith
  rw [sigmoid, div_le_one h1]
  linarith

/-! ## Claim theorems -/

/-- C1: for every process state and every raw request body, `run` returns
either a scalar result or an error string; nothing escapes the enclosing
try/except, so the call never terminates abnormally. -/
theorem c1_run_always_float_or_error_string (st : Option (ModelHandle α)) (raw : RawData α) :
    (∃ v, run st raw = .ok v) ∨ (∃ msg, run st raw = .error msg) := by
  cases h : run st raw with
  | ok v => exact Or.inl ⟨v, rfl⟩
  | error e => exact Or.inr ⟨e, rfl⟩

/-- C2: on a Ready endpoint, whenever the request parses and converts,
and the session produces its outputs, `run` returns exactly the scalar at
the first output tensor's position `[0][0]` — the first sample's first
output value — regardless of how many samples the batch held. -/
theorem c2_returns_first_output_first_scalar (m : ModelHandle α) (raw : RawData α)
    (j : Json α) (t : Tensor α) (n : Nat) (outs : List (Tensor α))
    (out0 row0 cell : Tensor α) (v : α)
    (hj : jsonLoads raw = .ok j) (ht : toTensor j = .ok t)
    (hshape : tensorShape t = [n, maxlen])
    (hs : m.runSession t = .ok outs)
    (h0 : listIndex outs 0 = .ok out0)
    (h1 : tensorIndex out0 0 = .ok row0)
    (h2 : tensorIndex row0 0 = .ok cell)
    (hv : tensorItem cell = .ok v) :
    run (some m) raw = .ok v := by
  simp [run, hj, ht, getGlobalModel, scoreTensor, hs, h0, h1, h2, hv]

/-- Witness for C2: a two-sample batch of shape `(2, 100)` against a
session whose output is `[[10], [20]]`; `run` answers 10, the first
sample's value, and the second sample's prediction is discarded. -/
theorem c2_witness :
    jsonLoads (RawData.value (jsonOfMatrix rowsTwo)) = .ok (jsonOfMatrix rowsTwo) ∧
    toTensor (jsonOfMatrix rowsTwo) = .ok (tensorOfMatrix rowsTwo) ∧
    tensorShape (tensorOfMatrix rowsTwo) = [2, maxlen] ∧
    handleTwo.runSession (tensorOfMatrix rowsTwo) =
      .ok [Tensor.arr [Tensor.arr [Tensor.scalar 10], Tensor.arr [Tensor.scalar 20]]] ∧
    run (some handleTwo) (RawData.value (jsonOfMatrix rowsTwo)) = .ok 10 := by
  have hlen : ∀ r ∈ rowsTwo, r.length = maxlen := by
    intro r hr
    rw [List.eq_of_mem_replicate (show r ∈ List.replicate 2 (List.replicate 100 (0:ℚ)) from hr)]
    simp [maxlen]
  have ht : toTensor (jsonOfMatrix rowsTwo) = .ok (tensorOfMatrix rowsTwo) :=
    toTensor_jsonOfMatrix rowsTwo maxlen hlen
  have hshape : tensorShape (tensorOfMatrix rowsTwo) = [2, maxlen] := by
    simp [tensorOfMatrix, rowsTwo, List.map_replicate, List.replicate_succ, tensorShape, maxlen]
  exact ⟨rfl, ht, hshape, rfl,
    c2_returns_first_output_first_scalar handleTwo _ _ _ 2 _ _ _ _ 10 rfl ht hshape rfl rfl rfl rfl rfl⟩

/-- C3: a failed `init` leaves the endpoint Uninitialized (the global
model stays unassigned), and every `run` call in that state returns an
error string — the NameError for the unassigned global when the input
itself was well-formed — instead of executing a model or crashing. -/
theorem c3_uninitialized_fails_cleanly (e : String) (raw : RawData α) :
    init (none : Option (ModelHandle α)) (Except.error e) = none ∧
    (∃ msg, run (none : Option (ModelHandle α)) raw = .error msg) ∧
    (∀ (j : Json α) (t : Tensor α), jsonLoads raw = .ok j → toTensor j = .ok t →
      run (none : Option (ModelHandle α)) raw = .error "name model is not defined") := by
  refine ⟨rfl, ?_, ?_⟩
  · cases hj : jsonLoads raw with
    | error m => exact ⟨m, by simp [run, hj]⟩
    | ok j =>
      cases ht : toTensor j with
      | error m => exact ⟨m, by simp [run, hj, ht]⟩
      | ok t => exact ⟨"name model is not defined", by simp [run, hj, ht, getGlobalModel]⟩
  · intro j t hj ht
    simp [run, hj, ht, getGlobalModel]

/-- Witness for C3: after an `init` whose load raised, the state is
`none`, and scoring the well-formed body `0` reports the NameError. -/
theorem c3_witness :
    init (none : Option (ModelHandle ℚ)) (Except.error "could not load model") = none ∧
    run (none : Option (ModelHandle ℚ)) (RawData.value (Json.num 0)) =
      .error "name model is not defined" :=
  ⟨(c3_uninitialized_fails_cleanly "could not load model" (RawData.value (Json.num 0))).1,
   (c3_uninitialized_fails_cleanly "could not load model"
      (RawData.value (Json.num 0))).2.2 (Json.num 0) (Tensor.scalar 0) rfl rfl⟩

/-- C4: on a Ready compliance endpoint, a valid single-sample request —
shape `(1, 100)`, every value a valid token index — succeeds and the
returned scalar lies in the closed interval `[0, 1]`, because the final
layer is the sigmoid `1 / (1 + exp(-z))` and the exponential is
positive. -/
theorem c4_score_in_unit_interval (w : ComplianceWeights α) (E : α → α) (raw : RawData α)
    (j : Json α) (t : Tensor α) (rows : List (List α))
    (hE : ∀ y, 0 < E y)
    (hj : jsonLoads raw = .ok j) (ht : toTensor j = .ok t)
    (hm : asMatrix t = some rows) (h1 : rows.length = 1)
    (hall : rows.all (fun r => r.length == maxlen) = true)
    (hvalid : ∀ r ∈ rows, ∀ x ∈ r, validIdx w.emb x) :
    ∃ v, run (some (mkComplianceSession w E)) raw = .ok v ∧ 0 ≤ v ∧ v ≤ 1 := by
  have hne : rows ≠ [] := by
    intro h
    rw [h] at h1
    simp at h1
  obtain ⟨v, hv, z, hz⟩ := run_valid_ok w E raw j t rows hj ht hm hne hall hvalid
  exact ⟨v, hv, hz ▸ sigmoid_nonneg E hE z, hz ▸ sigmoid_le_one E hE z⟩

/-- Witness for C4: one row of 100 zero token indices on the endpoint
loaded with the small demonstration weights; the score exists and lies
in `[0, 1]`. -/
theorem c4_witness :
    (∀ y : ℚ, 0 < expDemo y) ∧
    jsonLoads (RawData.value (jsonOfMatrix rowsOne)) = .ok (jsonOfMatrix rowsOne) ∧
    toTensor (jsonOfMatrix rowsOne) = .ok (tensorOfMatrix rowsOne) ∧
    asMatrix (tensorOfMatrix rowsOne) = some rowsOne ∧
    rowsOne.length = 1 ∧
    rowsOne.all (fun r => r.length == maxlen) = true ∧
    (∀ r ∈ rowsOne, ∀ x ∈ r, validIdx wTiny.emb x) ∧
    ∃ v : ℚ, run (some (mkComplianceSession wTiny expDemo))
      (RawData.value (jsonOfMatrix rowsOne)) = .ok v ∧ 0 ≤ v ∧ v ≤ 1 := by
  have hE : ∀ y : ℚ, 0 < expDemo y := fun _ => one_pos
  have ht : toTensor (jsonOfMatrix rowsOne) = .ok (tensorOfMatrix rowsOne) :=
    toTensor_jsonOfMatrix rowsOne maxlen
      (by
        intro r hr
        rw [List.mem_singleton.1 (show r ∈ [List.replicate 100 (0:ℚ)] from hr)]
        simp [maxlen])
  have hall : rowsOne.all (fun r => r.length == maxlen) = true := by
    simp [rowsOne, maxlen]
  have hvalid : ∀ r ∈ rowsOne, ∀ x ∈ r, validIdx wTiny.emb x := by
    intro r hr x hx
    rw [List.mem_singleton.1 (show r ∈ [List.replicate 100 (0:ℚ)] from hr)] at hx
    rw [List.eq_of_mem_replicate hx]
    decide
  exact ⟨hE, rfl, ht, asMatrix_tensorOfMatrix rowsOne, rfl, hall, hvalid,
    c4_score_in_unit_interval wTiny expDemo _ _ _ rowsOne hE rfl ht
      (asMatrix_tensorOfMatrix rowsOne) rfl hall hvalid⟩

/-- C5 counterexample: the notebook's data description labels components
with 0 for compliant and 1 for non-compliant, so the 1985 / fair / steel
component — non-compliant under the stated regulation — carries label 1,
not the 0 the claim's interpretation (1 means compliant, non-compliant
scores near 0) would require; the compliant 2010 / good / carbon-fiber
component carries label 0, not 1. -/
theorem c5_counterexample_label_encoding :
    IsNonCompliant ⟨1985, Condition.fair, Material.steel⟩ ∧
    label ⟨1985, Condition.fair, Material.steel⟩ = 1 ∧
    label ⟨1985, Condition.fair, Material.steel⟩ ≠ 0 ∧
    IsCompliant ⟨2010, Condition.good, Material.carbonFiber⟩ ∧
    label ⟨2010, Condition.good, Material.carbonFiber⟩ = 0 ∧
    label ⟨2010, Condition.good, Material.carbonFiber⟩ ≠ 1 := by
  refine ⟨by decide, by decide, by decide, by decide, by decide, by decide⟩

/-- C5 (amended): the training labels encode 0 as compliant and 1 as
non-compliant, so a pre-1995, fair/poor, or plastic/iron component is
labelled 1 and a model fitting the data scores it near 1, while a
compliant component is labelled 0 and scores near 0. -/
theorem c5_amended_label_zero_is_compliant (d : ComponentDesc) :
    (IsCompliant d ↔ label d = 0) ∧ (IsNonCompliant d ↔ label d = 1) := by
  by_cases h : IsNonCompliant d <;> simp [label, IsCompliant, h]

/-- C6: a scoring call is a pure function of the request and the loaded
model: repeating the same call from the resulting state returns the
identical response, and the state after the two calls is the starting
state. -/
theorem c6_scoring_deterministic_no_mutation (st : Option (ModelHandle α)) (raw : RawData α) :
    (runCall st raw).1 = (runCall (runCall st raw).2 raw).1 ∧
    (runCall (runCall st raw).2 raw).2 = st :=
  ⟨rfl, rfl⟩

/-- C7: the endpoint state is `none` (Uninitialized) or `some` handle
(Ready); a failed load leaves it Uninitialized and a successful one makes
it Ready, and no sequence of scoring calls moves the state, so the handle
set by the one `init` of the process lifetime is never reassigned. -/
theorem c7_state_machine_invariant (outcome : Except String (ModelHandle α))
    (rs : List (RawData α)) :
    stateAfterRuns (init none outcome) rs = init none outcome ∧
    ((∃ m, init (none : Option (ModelHandle α)) outcome = some m) ∨
      init (none : Option (ModelHandle α)) outcome = none) ∧
    (∀ e : String, init (none : Option (ModelHandle α)) (Except.error e) = none) ∧
    (∀ m : ModelHandle α, init (none : Option (ModelHandle α)) (Except.ok m) = some m) := by
  refine ⟨stateAfterRuns_id _ rs, ?_, fun _ => rfl, fun _ => rfl⟩
  cases outcome with
  | ok m => exact Or.inl ⟨m, rfl⟩
  | error e => exact Or.inr rfl

/-- C8 counterexample: the claim's preconditions hold — Ready endpoint
with the model's real dimensions, well-formed JSON of shape `(1, 100)`
convertible to floats — yet the value 10000 is outside the 10000-row
embedding table, the runtime's Gather rejects it, and `run` returns an
error string, so the exception branch is reachable. -/
theorem c8_counterexample_out_of_vocab :
    jsonLoads (RawData.value (jsonOfMatrix [rowBad])) = .ok (jsonOfMatrix [rowBad]) ∧
    toTensor (jsonOfMatrix [rowBad]) = .ok (tensorOfMatrix [rowBad]) ∧
    asMatrix (tensorOfMatrix [rowBad]) = some [rowBad] ∧
    rowBad.length = maxlen ∧
    run (some (mkComplianceSession wDemo expDemo)) (RawData.value (jsonOfMatrix [rowBad])) =
      .error "indices element out of data bounds" := by
  have hlen : rowBad.length = maxlen := by simp [rowBad, maxlen]
  have ht : toTensor (jsonOfMatrix [rowBad]) = .ok (tensorOfMatrix [rowBad]) :=
    toTensor_jsonOfMatrix [rowBad] maxlen
      (by intro r hr; rw [List.mem_singleton.1 hr]; exact hlen)
  have hembl : wDemo.emb.length = 10000 := List.length_replicate 10000 _
  have htr : truncToInt (10000 : ℚ) = 10000 := by
    rw [truncToInt, if_pos (by norm_num)]
    norm_num
  have hcond : ¬(-(wDemo.emb.length : ℤ) ≤ truncToInt (10000 : ℚ) ∧
      truncToInt (10000 : ℚ) < (wDemo.emb.length : ℤ)) := by
    rw [htr, hembl]
    omega
  have hgather : gatherRow wDemo.emb (10000 : ℚ) = .error "indices element out of data bounds" := by
    rw [gatherRow, if_neg hcond]
  have hfr : forwardRows wDemo expDemo [rowBad] = .error "indices element out of data bounds" := by
    simp [forwardRows, forwardRow, rowBad, gatherAll, hgather]
  refine ⟨rfl, ht, asMatrix_tensorOfMatrix [rowBad], hlen, ?_⟩
  simp [run, ht, jsonLoads, getGlobalModel, mkComplianceSession, scoreTensor, sessionRun,
    asMatrix_tensorOfMatrix, hlen, hfr]

/-- C8 (amended): under the claim's preconditions strengthened with the
condition the runtime itself enforces — every value truncates to a valid
index into the embedding table — the exception branch is unreachable and
`run` returns a scalar, never an error string. -/
theorem c8_amended_success_path (w : ComplianceWeights α) (E : α → α) (raw : RawData α)
    (j : Json α) (t : Tensor α) (rows : List (List α))
    (hj : jsonLoads raw = .ok j) (ht : toTensor j = .ok t)
    (hm : asMatrix t = some rows) (hne : rows ≠ [])
    (hall : rows.all (fun r => r.length == maxlen) = true)
    (hvalid : ∀ r ∈ rows, ∀ x ∈ r, validIdx w.emb x) :
    ∃ v, run (some (mkComplianceSession w E)) raw = .ok v := by
  obtain ⟨v, hv, _⟩ := run_valid_ok w E raw j t rows hj ht hm hne hall hvalid
  exact ⟨v, hv⟩

/-- Witness for C8 (amended): a two-sample batch of zero token indices on
the endpoint with the small demonstration weights scores successfully. -/
theorem c8_witness :
    jsonLoads (RawData.value (jsonOfMatrix rowsTwo)) = .ok (jsonOfMatrix rowsTwo) ∧
    toTensor (jsonOfMatrix rowsTwo) = .ok (tensorOfMatrix rowsTwo) ∧
    asMatrix (tensorOfMatrix rowsTwo) = some rowsTwo ∧
    rowsTwo ≠ [] ∧
    rowsTwo.all (fun r => r.length == maxlen) = true ∧
    (∀ r ∈ rowsTwo, ∀ x ∈ r, validIdx wTiny.emb x) ∧
    ∃ v : ℚ, run (some (mkComplianceSession wTiny expDemo))
      (RawData.value (jsonOfMatrix rowsTwo)) = .ok v := by
  have ht : toTensor (jsonOfMatrix rowsTwo) = .ok (tensorOfMatrix rowsTwo) :=
    toTensor_jsonOfMatrix rowsTwo maxlen
      (by
        intro r hr
        rw [List.eq_of_mem_replicate
          (show r ∈ List.replicate 2 (List.replicate 100 (0:ℚ)) from hr)]
        simp [maxlen])
  have hall : rowsTwo.all (fun r => r.length == maxlen) = true := by
    simp [rowsTwo, maxlen]
  have hvalid : ∀ r ∈ rowsTwo, ∀ x ∈ r, validIdx wTiny.emb x := by
    intro r hr x hx
    rw [List.eq_of_mem_replicate
      (show r ∈ List.replicate 2 (List.replicate 100 (0:ℚ)) from hr)] at hx
    rw [List.eq_of_mem_replicate hx]
    decide
  have hne : rowsTwo ≠ [] := by
    intro h
    exact absurd (congrArg List.length h) (by simp [rowsTwo])
  exact ⟨rfl, ht, asMatrix_tensorOfMatrix rowsTwo, hne, hall, hvalid,
    c8_amended_success_path wTiny expDemo _ _ _ rowsTwo rfl ht
      (asMatrix_tensorOfMatrix rowsTwo) hne hall hvalid⟩

/-- C9 counterexample: on a Ready endpoint the request body decoding to
the empty array is rejected by the session's input validation — the
converted empty array has rank 1 against the graph's rank-2 input — so
the error string is the rank error, not the IndexError of the
`result[0][0]` extraction, which is never reached. -/
theorem c9_counterexample_rank_not_index_error :
    run (some (mkComplianceSession wDemo expDemo)) (RawData.value (Json.arr [])) =
      .error "invalid rank for input" ∧
    (mkComplianceSession wDemo expDemo).runSession (Tensor.arr []) =
      .error "invalid rank for input" ∧
    ("invalid rank for input" : String) ≠ "index is out of bounds for axis 0" ∧
    ("invalid rank for input" : String) ≠ "list index out of range" := by
  refine ⟨rfl, rfl, by decide, by decide⟩

/-- C9 (amended): on a Ready endpoint a request decoding to an empty
array yields an error string and never a scalar — the session's shape
validation rejects the rank-1 empty array before any output indexing —
and no special case handles zero samples. -/
theorem c9_amended_empty_batch_error (w : ComplianceWeights α) (E : α → α) :
    run (some (mkComplianceSession w E)) (RawData.value (Json.arr [])) =
      .error "invalid rank for input" := rfl

/-- C10: `run` applies no validation between conversion and the model
call: whatever numeric values the converted array holds — negative,
fractional, or beyond the vocabulary — the array is handed unchanged to
the session-and-extract pipeline. -/
theorem c10_no_value_validation (m : ModelHandle α) (raw : RawData α)
    (j : Json α) (t : Tensor α)
    (hj : jsonLoads raw = .ok j) (ht : toTensor j = .ok t) :
    run (some m) raw = scoreTensor m t := by
  simp [run, hj, ht, getGlobalModel]

/-- Witness for C10: a row holding a negative, a fractional and an
out-of-vocabulary value converts successfully and is passed to the model
pipeline unchanged. -/
theorem c10_witness :
    jsonLoads (RawData.value (jsonOfMatrix [rowWild])) = .ok (jsonOfMatrix [rowWild]) ∧
    toTensor (jsonOfMatrix [rowWild]) = .ok (tensorOfMatrix [rowWild]) ∧
    run (some (mkComplianceSession wTiny expDemo)) (RawData.value (jsonOfMatrix [rowWild])) =
      scoreTensor (mkComplianceSession wTiny expDemo) (tensorOfMatrix [rowWild]) := by
  have ht : toTensor (jsonOfMatrix [rowWild]) = .ok (tensorOfMatrix [rowWild]) :=
    toTensor_jsonOfMatrix [rowWild] 3
      (by intro r hr; rw [List.mem_singleton.1 hr]; rfl)
  exact ⟨rfl, ht, c10_no_value_validation (mkComplianceSession wTiny expDemo) _ _ _ rfl ht⟩

end OnnxScoring
